import Mathlib

/-!
Verification of the commit-comparison tool in `streamlit_app.py`.

The program is a Streamlit app that compares two tags of a GitHub
repository: it resolves the commit range between the tags (with a
fallback listing), fetches per-commit file-change details (in a thread
pool, consuming results in completion order), folds them into a text
summary, and sends that to an OpenAI completion endpoint.

The embedding below is shallow: every HTTP interaction is modelled by an
oracle `String → HttpResp α` mapping a request URL to the (already
JSON-decoded) response, and the nondeterministic completion order of the
thread pool is modelled by an index permutation `order : List Nat`.
Streamlit output calls (`st.error`, `st.warning`, ...) are modelled as
values accumulated in the result.
-/

/-- An HTTP response as the code observes it: `status_code`, the decoded
JSON `body`, and the raw `text` used in error messages. -/
structure HttpResp (α : Type) where
  status_code : Nat
  body : α
  text : String
deriving DecidableEq

/-- A commit object as returned by the GitHub list/compare endpoints.
The code only reads `commit["sha"]` and `commit["commit"]["message"]`;
`commit_message` models the nested `commit.message` field. -/
structure Commit where
  sha : String
  commit_message : String
deriving DecidableEq

/-- `BASE_URL` from the source. -/
def BASE_URL : String := "https://api.github.com"

/-- The `/compare/` URL built in `get_commits_between_tags`. -/
def compare_url (repo_full_name tag1 tag2 : String) : String :=
  BASE_URL ++ "/repos/" ++ repo_full_name ++ "/compare/" ++ tag1 ++ "..." ++ tag2

/-- The fallback `/commits?sha=` URL built in `get_commits_between_tags`. -/
def fallback_url (repo_full_name tag1 : String) : String :=
  BASE_URL ++ "/repos/" ++ repo_full_name ++ "/commits?sha=" ++ tag1 ++ "&per_page=100"

/-- `commits[:commit_limit] if commit_limit else commits`: truncate to
`commit_limit` unless the limit is 0 (Python falsiness of `0`). -/
def truncate_limit (commit_limit : Nat) (commits : List Commit) : List Commit :=
  if commit_limit = 0 then commits else commits.take commit_limit

/-- Result of `get_commits_between_tags`: the returned value (`none`
models Python `None`), the `st.error` messages emitted, and the request
URLs issued, in order. -/
structure ResolverResult where
  result : Option (List Commit)
  errors : List String
  requests : List String
deriving DecidableEq

/-- `get_commits_between_tags(repo_full_name, tag1, tag2, commit_limit)`.
The network is the oracle `net`; for the `/compare/` endpoint the body is
`data.get("commits", [])`, for the fallback endpoint it is the returned
commit list itself. -/
def get_commits_between_tags (net : String → HttpResp (List Commit))
    (repo_full_name tag1 tag2 : String) (commit_limit : Nat) : ResolverResult :=
  let cu := compare_url repo_full_name tag1 tag2
  let compare_response := net cu
  let fallback : ResolverResult :=
    let fu := fallback_url repo_full_name tag1
    let fallback_response := net fu
    if fallback_response.status_code = 200 then
      { result := some (truncate_limit commit_limit fallback_response.body)
        errors := []
        requests := [cu, fu] }
    else
      { result := none
        errors := ["Failed to fetch commits manually: " ++ fallback_response.text]
        requests := [cu, fu] }
  if compare_response.status_code = 200 then
    if compare_response.body ≠ [] then
      { result := some (truncate_limit commit_limit compare_response.body)
        errors := []
        requests := [cu] }
    else fallback
  else fallback

/-- C2: when the comparison call succeeds (HTTP 200) with a non-empty
commit list, the resolver returns a sequence of length
`min(limit, total_commits)` for `limit > 0` and `total_commits` for
`limit = 0`. -/
theorem resolver_length_spec (net : String → HttpResp (List Commit))
    (repo tag1 tag2 : String) (commit_limit : Nat) (hne : tag1 ≠ tag2)
    (h200 : (net (compare_url repo tag1 tag2)).status_code = 200)
    (hnonempty : (net (compare_url repo tag1 tag2)).body ≠ []) :
    ∃ cs, (get_commits_between_tags net repo tag1 tag2 commit_limit).result = some cs ∧
      cs.length =
        if 0 < commit_limit then
          min commit_limit (net (compare_url repo tag1 tag2)).body.length
        else (net (compare_url repo tag1 tag2)).body.length := by
  refine ⟨truncate_limit commit_limit (net (compare_url repo tag1 tag2)).body, ?_, ?_⟩
  · simp only [get_commits_between_tags, h200, if_true, hnonempty, ite_true, if_pos rfl]
    simp [hnonempty]
  · unfold truncate_limit
    rcases Nat.eq_zero_or_pos commit_limit with h0 | hpos
    · simp [h0]
    · simp [Nat.pos_iff_ne_zero.mp hpos, hpos, List.length_take]

/-- A network oracle on which the comparison call succeeds with two
commits. -/
def netCompareOk : String → HttpResp (List Commit) :=
  fun _ => { status_code := 200, body := [⟨"s1", "m1"⟩, ⟨"s2", "m2"⟩], text := "" }

/-- Witness for `resolver_length_spec`: limit 1 out of 2 commits yields
length `min 1 2 = 1`. -/
theorem resolver_length_spec_witness :
    ∃ cs, (get_commits_between_tags netCompareOk "o/r" "v1" "v2" 1).result = some cs ∧
      cs.length =
        if 0 < 1 then min 1 (netCompareOk (compare_url "o/r" "v1" "v2")).body.length
        else (netCompareOk (compare_url "o/r" "v1" "v2")).body.length :=
  resolver_length_spec netCompareOk "o/r" "v1" "v2" 1 (by decide) rfl (by decide)

/-- C3: when the primary comparison fails (non-200) or returns zero
commits, the resolver issues the fallback request (truncated to the same
limit on success); when the fallback also fails, it returns `None` and
surfaces the fallback response text in the emitted error. -/
theorem resolver_fallback_spec (net : String → HttpResp (List Commit))
    (repo tag1 tag2 : String) (commit_limit : Nat)
    (hfail : (net (compare_url repo tag1 tag2)).status_code ≠ 200 ∨
      (net (compare_url repo tag1 tag2)).body = []) :
    (get_commits_between_tags net repo tag1 tag2 commit_limit).requests =
        [compare_url repo tag1 tag2, fallback_url repo tag1] ∧
    ((net (fallback_url repo tag1)).status_code = 200 →
      (get_commits_between_tags net repo tag1 tag2 commit_limit).result =
        some (truncate_limit commit_limit (net (fallback_url repo tag1)).body)) ∧
    ((net (fallback_url repo tag1)).status_code ≠ 200 →
      (get_commits_between_tags net repo tag1 tag2 commit_limit).result = none ∧
      (get_commits_between_tags net repo tag1 tag2 commit_limit).errors =
        ["Failed to fetch commits manually: " ++ (net (fallback_url repo tag1)).text]) := by
  unfold get_commits_between_tags
  rcases hfail with hnf | hempty
  · simp only [if_neg hnf]
    by_cases hf : (net (fallback_url repo tag1)).status_code = 200 <;> simp [hf]
  · by_cases hc : (net (compare_url repo tag1 tag2)).status_code = 200 <;>
      by_cases hf : (net (fallback_url repo tag1)).status_code = 200 <;>
      simp [hc, hf, hempty]

/-- A network oracle that fails every request with HTTP 500. -/
def netAllFail : String → HttpResp (List Commit) :=
  fun _ => { status_code := 500, body := [], text := "boom" }

/-- Witness for `resolver_fallback_spec`: with every call failing, the
fallback is attempted, the result is absent, and the error text is
surfaced. -/
theorem resolver_fallback_spec_witness :
    (get_commits_between_tags netAllFail "o/r" "v1" "v2" 10).requests =
        [compare_url "o/r" "v1" "v2", fallback_url "o/r" "v1"] ∧
      (get_commits_between_tags netAllFail "o/r" "v1" "v2" 10).result = none ∧
      (get_commits_between_tags netAllFail "o/r" "v1" "v2" 10).errors =
        ["Failed to fetch commits manually: boom"] := by
  have h := resolver_fallback_spec netAllFail "o/r" "v1" "v2" 10 (Or.inl (by decide))
  exact ⟨h.1, (h.2.2 (by decide)).1, (h.2.2 (by decide)).2⟩

/-- C10: the resolver returns `None` exactly when the fallback path is
taken and the fallback call itself is non-200; a 200 fallback response
with an empty body yields the empty sequence `some []`, not `None`. -/
theorem resolver_none_iff_fallback_error (net : String → HttpResp (List Commit))
    (repo tag1 tag2 : String) (commit_limit : Nat) :
    ((get_commits_between_tags net repo tag1 tag2 commit_limit).result = none ↔
      (¬ ((net (compare_url repo tag1 tag2)).status_code = 200 ∧
          (net (compare_url repo tag1 tag2)).body ≠ [])) ∧
        (net (fallback_url repo tag1)).status_code ≠ 200) ∧
    ((¬ ((net (compare_url repo tag1 tag2)).status_code = 200 ∧
        (net (compare_url repo tag1 tag2)).body ≠ [])) →
      (net (fallback_url repo tag1)).status_code = 200 →
      (net (fallback_url repo tag1)).body = [] →
      (get_commits_between_tags net repo tag1 tag2 commit_limit).result = some []) := by
  unfold get_commits_between_tags
  constructor
  · by_cases hc : (net (compare_url repo tag1 tag2)).status_code = 200 <;>
      by_cases hb : (net (compare_url repo tag1 tag2)).body = [] <;>
      by_cases hf : (net (fallback_url repo tag1)).status_code = 200 <;>
      simp [hc, hb, hf]
  · intro hnp hf hb
    by_cases hc : (net (compare_url repo tag1 tag2)).status_code = 200
    · have hcb : (net (compare_url repo tag1 tag2)).body = [] := by
        by_contra hne
        exact hnp ⟨hc, hne⟩
      simp [hc, hcb, hf, hb, truncate_limit]
    · simp [hc, hf, hb, truncate_limit]

/-- A network oracle whose comparison call 404s and whose fallback call
succeeds with an empty commit list. -/
def netFallbackEmpty : String → HttpResp (List Commit) :=
  fun u =>
    if u = fallback_url "o/r" "v1" then { status_code := 200, body := [], text := "" }
    else { status_code := 404, body := [], text := "not found" }

/-- Witness for `resolver_none_iff_fallback_error`: a successful fallback
with zero commits returns `some []`. -/
theorem resolver_none_iff_fallback_error_witness :
    (get_commits_between_tags netFallbackEmpty "o/r" "v1" "v2" 10).result = some [] :=
  (resolver_none_iff_fallback_error netFallbackEmpty "o/r" "v1" "v2" 10).2
    (by decide) (by decide) (by decide)

/-!
Repository listing: Python dicts are modelled as association lists with
unique keys in insertion order; `dict_set` is Python `d[k] = v` and
`dict_merge a b` is `{**a, **b}`.
-/

/-- Association-list model of Python dictionaries (`full_name → html_url`). -/
abbrev PyDict := List (String × String)

/-- Dictionary lookup, first (hence, with unique keys, only) match. -/
def dict_get : PyDict → String → Option String
  | [], _ => none
  | p :: t, k => if p.1 = k then some p.2 else dict_get t k

/-- Python `d[k] = v`: overwrite in place when the key exists, append
otherwise. -/
def dict_set (d : PyDict) (k v : String) : PyDict :=
  if (dict_get d k).isSome then d.map (fun p => if p.1 = k then (k, v) else p)
  else d ++ [(k, v)]

/-- Python `{**a, **b}`: start from `a` and write every entry of `b`. -/
def dict_merge (a b : PyDict) : PyDict :=
  b.foldl (fun acc p => dict_set acc p.1 p.2) a

/-- `get_all_repos()`: `{**user_repos, **org_repos}`. -/
def get_all_repos (user_repos org_repos : PyDict) : PyDict :=
  dict_merge user_repos org_repos

lemma dict_get_append (d1 d2 : PyDict) (k : String) :
    dict_get (d1 ++ d2) k =
      match dict_get d1 k with
      | some v => some v
      | none => dict_get d2 k := by
  induction d1 with
  | nil => simp [dict_get]
  | cons p t ih =>
    by_cases h : p.1 = k <;> simp [dict_get, h, ih]

lemma dict_get_map_overwrite_ne (d : PyDict) (k v k' : String) (h : k' ≠ k) :
    dict_get (d.map fun p => if p.1 = k then (k, v) else p) k' = dict_get d k' := by
  induction d with
  | nil => simp [dict_get]
  | cons p t ih =>
    by_cases hp : p.1 = k
    · simp [dict_get, hp, Ne.symm h, ih]
    · by_cases hp' : p.1 = k' <;> simp [dict_get, hp, hp', h, ih]

lemma dict_get_map_overwrite_self (d : PyDict) (k v : String)
    (h : (dict_get d k).isSome) :
    dict_get (d.map fun p => if p.1 = k then (k, v) else p) k = some v := by
  induction d with
  | nil => simp [dict_get] at h
  | cons p t ih =>
    by_cases hp : p.1 = k
    · simp [dict_get, hp]
    · simp [dict_get, hp] at h ⊢
      exact ih h

lemma dict_get_set (d : PyDict) (k v k' : String) :
    dict_get (dict_set d k v) k' = if k' = k then some v else dict_get d k' := by
  unfold dict_set
  by_cases hk : (dict_get d k).isSome
  · simp only [hk, if_true]
    by_cases h : k' = k
    · subst h; simp [dict_get_map_overwrite_self d k' v hk]
    · simp [h, dict_get_map_overwrite_ne d k v k' h]
  · rw [if_neg hk, dict_get_append]
    by_cases h : k' = k
    · subst h
      have hnone : dict_get d k' = none := by
        cases hd : dict_get d k' <;> simp [hd] at hk ⊢
      simp [hnone, dict_get]
    · cases hd : dict_get d k' <;> simp [hd, dict_get, h, Ne.symm h]

lemma dict_get_eq_none_of_not_mem (d : PyDict) (k : String)
    (h : k ∉ d.map Prod.fst) : dict_get d k = none := by
  induction d with
  | nil => simp [dict_get]
  | cons p t ih =>
    simp only [List.map_cons, List.mem_cons] at h
    push_neg at h
    have hne : ¬ p.1 = k := fun he => h.1 he.symm
    simp [dict_get, hne, ih h.2]

lemma dict_merge_get (u o : PyDict) (ho : (o.map Prod.fst).Nodup) (k : String) :
    dict_get (dict_merge u o) k =
      match dict_get o k with
      | some v => some v
      | none => dict_get u k := by
  induction o generalizing u with
  | nil => simp [dict_merge, dict_get]
  | cons p t ih =>
    simp only [List.map_cons, List.nodup_cons] at ho
    have step : dict_merge u (p :: t) = dict_merge (dict_set u p.1 p.2) t := rfl
    rw [step, ih (dict_set u p.1 p.2) ho.2]
    by_cases h : p.1 = k
    · subst h
      have ht : dict_get t p.1 = none := dict_get_eq_none_of_not_mem t p.1 ho.1
      simp [ht, dict_get, dict_get_set]
    · rw [show dict_get (p :: t) k = dict_get t k by simp [dict_get, h]]
      have h' : ¬ k = p.1 := fun he => h he.symm
      cases hd : dict_get t k <;> simp [hd, dict_get_set, h']

/-- C7: `get_all_repos` merges the personal and organization mappings
with last-write-wins: on any key, the result holds the organization
entry when one exists and the personal entry otherwise. -/
theorem get_all_repos_last_write_wins (user_repos org_repos : PyDict)
    (ho : (org_repos.map Prod.fst).Nodup) (k : String) :
    dict_get (get_all_repos user_repos org_repos) k =
      match dict_get org_repos k with
      | some v => some v
      | none => dict_get user_repos k :=
  dict_merge_get user_repos org_repos ho k

/-- Witness for `get_all_repos_last_write_wins`: a colliding key takes
the organization value, a personal-only key survives. -/
theorem get_all_repos_last_write_wins_witness :
    dict_get (get_all_repos [("a/r", "u"), ("a/p", "q")] [("a/r", "o"), ("b/r", "w")]) "a/r" =
      match dict_get [("a/r", "o"), ("b/r", "w")] "a/r" with
      | some v => some v
      | none => dict_get [("a/r", "u"), ("a/p", "q")] "a/r" :=
  get_all_repos_last_write_wins [("a/r", "u"), ("a/p", "q")] [("a/r", "o"), ("b/r", "w")]
    (by decide) "a/r"

/-!
The OpenAI call in `generate_ai_summary`: the completion client is an
oracle `AIRequest → Except String AIResponse`; a raised exception is the
`Except.error` case and propagates (the Lean model returns it unchanged,
as the Python function has no handler).
-/

/-- One chat message, `{"role": ..., "content": ...}`. -/
structure AIMessage where
  role : String
  content : String
deriving DecidableEq, Inhabited

/-- The request built by `client.chat.completions.create`. -/
structure AIRequest where
  model : String
  messages : List AIMessage
  max_tokens : Nat
deriving DecidableEq, Inhabited

/-- One returned choice. -/
structure AIChoice where
  message : AIMessage
deriving DecidableEq, Inhabited

/-- The completion response; the code reads `response.choices[0]`. -/
structure AIResponse where
  choices : List AIChoice
deriving DecidableEq, Inhabited

/-- `generate_ai_summary(custom_prompt, text)`: build the single prompt
`f"{custom_prompt}\n\n{text}"`, issue one request with model
`gpt-4o-mini` and `max_tokens=1000`, and return
`response.choices[0].message.content`. The second component records the
requests issued. -/
def generate_ai_summary (complete : AIRequest → Except String AIResponse)
    (custom_prompt text : String) : Except String String × List AIRequest :=
  let prompt := custom_prompt ++ "\n\n" ++ text
  let req : AIRequest :=
    { model := "gpt-4o-mini"
      messages := [{ role := "user", content := prompt }]
      max_tokens := 1000 }
  (match complete req with
   | Except.ok response => Except.ok response.choices.headI.message.content
   | Except.error e => Except.error e,
   [req])

/-- C8: `generate_ai_summary` issues exactly one request, whose single
user message is the concatenation of the instruction and the formatted
summary and whose response length is bounded by `max_tokens = 1000`; on
success the generated text is returned verbatim, and a completion error
propagates to the caller unmodified. -/
theorem generate_ai_summary_spec (complete : AIRequest → Except String AIResponse)
    (custom_prompt text : String) (req : AIRequest)
    (hreq : req = { model := "gpt-4o-mini"
                    messages := [{ role := "user", content := custom_prompt ++ "\n\n" ++ text }]
                    max_tokens := 1000 }) :
    (generate_ai_summary complete custom_prompt text).2 = [req] ∧
    (∀ e, complete req = Except.error e →
      (generate_ai_summary complete custom_prompt text).1 = Except.error e) ∧
    (∀ response c rest, complete req = Except.ok response → response.choices = c :: rest →
      (generate_ai_summary complete custom_prompt text).1 = Except.ok c.message.content) := by
  subst hreq
  refine ⟨rfl, ?_, ?_⟩
  · intro e he
    simp [generate_ai_summary, he]
  · intro response c rest hok hch
    simp [generate_ai_summary, hok, hch, List.headI]

/-- A completion oracle that always succeeds with output `OUT`. -/
def complete_ok0 : AIRequest → Except String AIResponse :=
  fun _ => Except.ok { choices := [{ message := { role := "assistant", content := "OUT" } }] }

/-- A completion oracle that always raises with message `down`. -/
def complete_err0 : AIRequest → Except String AIResponse :=
  fun _ => Except.error "down"

/-- Witness for `generate_ai_summary_spec`: the success oracle yields the
generated text verbatim, and the failing oracle propagates its error. -/
theorem generate_ai_summary_spec_witness :
    (generate_ai_summary complete_ok0 "P" "T").1 = Except.ok "OUT" ∧
    (generate_ai_summary complete_err0 "P" "T").1 = Except.error "down" :=
  ⟨(generate_ai_summary_spec complete_ok0 "P" "T" _ rfl).2.2
      { choices := [{ message := { role := "assistant", content := "OUT" } }] }
      { message := { role := "assistant", content := "OUT" } } [] rfl rfl,
   (generate_ai_summary_spec complete_err0 "P" "T" _ rfl).2.1 "down" rfl⟩

/-!
Commit detail aggregation (`fetch_commit_details` and the thread-pool
loop in `generate_commit_summary`). The `ThreadPoolExecutor` submits one
future per commit; `as_completed` yields them in an arbitrary completion
order, modelled by an index list `order` that is a permutation of
`range commits.length`.
-/

/-- One entry of `commit_details["files"]`. -/
structure FileEntry where
  filename : String
  status : String
deriving DecidableEq

/-- Body of the single-commit endpoint: `commit_details["commit"]["message"]`
and `commit_details.get("files", [])`. -/
structure CommitDetails where
  message : String
  files : List FileEntry
deriving DecidableEq

/-- The single-commit URL built in `fetch_commit_details`. -/
def commit_url (repo_full_name sha : String) : String :=
  BASE_URL ++ "/repos/" ++ repo_full_name ++ "/commits/" ++ sha

/-- The changed-file label `f"{file['filename']} ({file['status']})"`. -/
def file_label (f : FileEntry) : String :=
  f.filename ++ " (" ++ f.status ++ ")"

/-- `fetch_commit_details(repo_full_name, commit)`: on HTTP 200 return
the fetched message and the changed-file labels; otherwise fall back to
the message of the already-known commit object and no files. -/
def fetch_commit_details (detail_net : String → HttpResp CommitDetails)
    (repo_full_name : String) (commit : Commit) : String × List String :=
  let response := detail_net (commit_url repo_full_name commit.sha)
  if response.status_code = 200 then
    (response.body.message, response.body.files.map file_label)
  else
    (commit.commit_message, [])

/-- The `(filename, status)` pairs a commit contributes, before they are
rendered into labels: the file list of a successful detail fetch, and
nothing on a failed fetch. Used to state the claim about pair
repetition. -/
def changed_file_pairs (detail_net : String → HttpResp CommitDetails)
    (repo_full_name : String) (commit : Commit) : List (String × String) :=
  let response := detail_net (commit_url repo_full_name commit.sha)
  if response.status_code = 200 then
    response.body.files.map (fun f => (f.filename, f.status))
  else []

/-- The accumulator of the `as_completed` loop: the `commit_messages`
list and the `files_changed` set. -/
structure AggState where
  commit_messages : List String
  files_changed : Finset String
deriving DecidableEq

/-- One iteration of the `as_completed` loop:
`commit_messages.append(commit_message)` and
`files_changed.update(changed_files)`. -/
def agg_step (st : AggState) (r : String × List String) : AggState :=
  { commit_messages := st.commit_messages ++ [r.1]
    files_changed := st.files_changed ∪ r.2.toFinset }

/-- The whole `as_completed` loop over the future results in completion
order, starting from the empty list and empty set. -/
def as_completed_fold (completed : List (String × List String)) : AggState :=
  completed.foldl agg_step { commit_messages := [], files_changed := ∅ }

/-- The aggregation phase of `generate_commit_summary`: submit one
future per commit and consume the results in completion `order`. -/
def generate_commit_summary_agg (detail_net : String → HttpResp CommitDetails)
    (repo_full_name : String) (commits : List Commit) (order : List Nat) : AggState :=
  let futures := commits.map (fetch_commit_details detail_net repo_full_name)
  as_completed_fold (order.filterMap (fun i => futures[i]?))

/-- `chr(10).join(...)`. -/
def join_lines (xs : List String) : String :=
  String.intercalate "\n" xs

/-- The `change_summary` f-string template (its decorative characters as
they appear, byte for byte, in the source). -/
def change_summary_template (ncommits nfiles : Nat)
    (files_list commit_messages : List String) : String :=
  "\n    \uF8FFüìå **Number of commits analyzed:** " ++ toString ncommits ++
  "\n    \uF8FFüìÇ **Files changed:** " ++ toString nfiles ++
  "\n    \n    \uF8FFüîπ **List of changed files:**\n    " ++ join_lines files_list ++
  "\n\n    \uF8FFüìù **Commit Messages:**\n    " ++ join_lines commit_messages ++
  "\n    "

/-- `generate_commit_summary(repo_full_name, commits, custom_prompt)`.
`set_iter` models the (arbitrary) iteration order of the Python set in
`chr(10).join(files_changed)`; `order` is the completion order of the
futures. The second component records the completion requests issued. -/
def generate_commit_summary (detail_net : String → HttpResp CommitDetails)
    (complete : AIRequest → Except String AIResponse)
    (set_iter : Finset String → List String) (repo_full_name : String)
    (commits : List Commit) (custom_prompt : String) (order : List Nat) :
    Except String String × List AIRequest :=
  if commits = [] then (Except.ok "No commit data available.", [])
  else
    let agg := generate_commit_summary_agg detail_net repo_full_name commits order
    let change_summary := change_summary_template commits.length agg.files_changed.card
      (set_iter agg.files_changed) agg.commit_messages
    generate_ai_summary complete custom_prompt change_summary

lemma foldl_agg_step_messages (completed : List (String × List String)) (init : AggState) :
    (completed.foldl agg_step init).commit_messages =
      init.commit_messages ++ completed.map Prod.fst := by
  induction completed generalizing init with
  | nil => simp
  | cons r t ih => simp [agg_step, ih, List.append_assoc]

lemma foldl_agg_step_files (completed : List (String × List String)) (init : AggState) :
    (completed.foldl agg_step init).files_changed =
      init.files_changed ∪ (completed.map Prod.snd).flatten.toFinset := by
  induction completed generalizing init with
  | nil => simp
  | cons r t ih => simp [agg_step, ih, List.toFinset_append, Finset.union_assoc]

lemma range_filterMap_getElem {α : Type} (l : List α) :
    (List.range l.length).filterMap (fun i => l[i]?) = l := by
  induction l with
  | nil => simp
  | cons a t ih =>
    rw [List.length_cons, List.range_succ_eq_map]
    simp only [List.filterMap_cons, List.filterMap_map]
    have hcomp : ((fun i => (a :: t)[i]?) ∘ Nat.succ) = fun i => t[i]? := by
      funext i
      simp
    rw [hcomp, ih]
    simp

lemma perm_flatten {α : Type} {l₁ l₂ : List (List α)} (h : l₁.Perm l₂) :
    l₁.flatten.Perm l₂.flatten := by
  induction h with
  | nil => rfl
  | cons x _h ih => simpa [List.flatten_cons] using ih.append_left x
  | swap x y l =>
    simp only [List.flatten_cons]
    rw [← List.append_assoc, ← List.append_assoc]
    exact List.perm_append_comm.append_right _
  | trans _h₁ _h₂ ih₁ ih₂ => exact ih₁.trans ih₂

lemma completed_perm {α : Type} (l : List α) {order : List Nat}
    (h : order.Perm (List.range l.length)) :
    (order.filterMap (fun i => l[i]?)).Perm l :=
  (h.filterMap _).trans (by rw [range_filterMap_getElem])

lemma agg_messages_perm (detail_net : String → HttpResp CommitDetails)
    (repo_full_name : String) (commits : List Commit) (order : List Nat) :
    (generate_commit_summary_agg detail_net repo_full_name commits order).commit_messages =
      (order.filterMap
        (fun i => (commits.map (fetch_commit_details detail_net repo_full_name))[i]?)).map
      Prod.fst := by
  unfold generate_commit_summary_agg as_completed_fold
  rw [foldl_agg_step_messages]
  rfl

lemma agg_messages_length (detail_net : String → HttpResp CommitDetails)
    (repo_full_name : String) (commits : List Commit) (order : List Nat)
    (h : order.Perm (List.range commits.length)) :
    (generate_commit_summary_agg detail_net repo_full_name commits order).commit_messages.length =
      commits.length := by
  rw [agg_messages_perm detail_net repo_full_name commits order, List.length_map]
  have hp := completed_perm (commits.map (fetch_commit_details detail_net repo_full_name))
    (by simpa using h)
  rw [hp.length_eq, List.length_map]

lemma perm_toFinset {α : Type} [DecidableEq α] {l₁ l₂ : List α} (h : l₁.Perm l₂) :
    l₁.toFinset = l₂.toFinset := by
  have hc : (l₁ : Multiset α) = (l₂ : Multiset α) := Multiset.coe_eq_coe.mpr h
  rw [← List.toFinset_coe, ← List.toFinset_coe, hc]

lemma agg_files_eq (detail_net : String → HttpResp CommitDetails)
    (repo_full_name : String) (commits : List Commit) (order : List Nat)
    (h : order.Perm (List.range commits.length)) :
    (generate_commit_summary_agg detail_net repo_full_name commits order).files_changed =
      ((commits.map (fetch_commit_details detail_net repo_full_name)).map
        Prod.snd).flatten.toFinset := by
  have hbase : (generate_commit_summary_agg detail_net repo_full_name commits order).files_changed =
      ((order.filterMap
          (fun i => (commits.map (fetch_commit_details detail_net repo_full_name))[i]?)).map
        Prod.snd).flatten.toFinset := by
    unfold generate_commit_summary_agg as_completed_fold
    rw [foldl_agg_step_files, Finset.empty_union]
  rw [hbase]
  have hp := completed_perm (commits.map (fetch_commit_details detail_net repo_full_name))
    (by simpa using h)
  exact perm_toFinset (perm_flatten (hp.map Prod.snd))

lemma toFinset_card_eq_length_iff {α : Type} [DecidableEq α] (l : List α) :
    l.toFinset.card = l.length ↔ l.Nodup := by
  constructor
  · intro hlen
    rw [List.card_toFinset] at hlen
    exact List.dedup_eq_self.mp ((List.dedup_sublist l).eq_of_length hlen)
  · exact fun hnd => List.toFinset_card_of_nodup hnd

/-- A detail oracle whose two commits contribute distinct
`(filename, status)` pairs whose rendered labels nevertheless collide:
`("a", "b) (c")` and `("a (b)", "c")` both render as `"a (b) (c)"`. -/
def dnetCollide : String → HttpResp CommitDetails :=
  fun u =>
    if u = commit_url "o/r" "s1" then
      { status_code := 200
        body := { message := "m1", files := [{ filename := "a", status := "b) (c" }] }
        text := "" }
    else
      { status_code := 200
        body := { message := "m2", files := [{ filename := "a (b)", status := "c" }] }
        text := "" }

/-- C4, counterexample: for the commit range served by `dnetCollide` no
`(filename, status)` pair repeats across commits, yet the deduplicated
label set has size 1 while the per-commit file-change counts sum to 2 —
the claimed "equality iff no pair repeats" fails because the label map
`filename ++ " (" ++ status ++ ")"` is not injective on pairs. -/
theorem files_changed_card_counterexample :
    ([0, 1].Perm (List.range ([⟨"s1", "m1"⟩, ⟨"s2", "m2"⟩] : List Commit).length)) ∧
    (([⟨"s1", "m1"⟩, ⟨"s2", "m2"⟩] : List Commit).flatMap
        (changed_file_pairs dnetCollide "o/r")).Nodup ∧
    (generate_commit_summary_agg dnetCollide "o/r"
        [⟨"s1", "m1"⟩, ⟨"s2", "m2"⟩] [0, 1]).files_changed.card ≠
      ((([⟨"s1", "m1"⟩, ⟨"s2", "m2"⟩] : List Commit).map
          (fetch_commit_details dnetCollide "o/r")).map (fun r => r.2.length)).sum := by
  decide

/-- C4 (amended): for every commit range and completion order, the size
of the deduplicated changed-file set is at most the sum of per-commit
file-change counts, with equality iff no rendered label
`"{filename} ({status})"` occurs twice among all per-commit changed-file
lists (two distinct pairs with the same rendering, or one pair occurring
twice, both break equality). -/
theorem files_changed_card_spec (detail_net : String → HttpResp CommitDetails)
    (repo_full_name : String) (commits : List Commit) (order : List Nat)
    (h : order.Perm (List.range commits.length)) :
    (generate_commit_summary_agg detail_net repo_full_name commits order).files_changed.card ≤
      ((commits.map (fetch_commit_details detail_net repo_full_name)).map
        (fun r => r.2.length)).sum ∧
    ((generate_commit_summary_agg detail_net repo_full_name commits order).files_changed.card =
        ((commits.map (fetch_commit_details detail_net repo_full_name)).map
          (fun r => r.2.length)).sum ↔
      ((commits.map (fetch_commit_details detail_net repo_full_name)).map
        Prod.snd).flatten.Nodup) := by
  rw [agg_files_eq detail_net repo_full_name commits order h]
  have hsum : ((commits.map (fetch_commit_details detail_net repo_full_name)).map
      (fun r => r.2.length)).sum =
      ((commits.map (fetch_commit_details detail_net repo_full_name)).map
        Prod.snd).flatten.length := by
    simp only [List.length_flatten, List.map_map]
    exact rfl
  rw [hsum]
  refine ⟨?_, toFinset_card_eq_length_iff _⟩
  apply List.toFinset_card_le

/-- A detail oracle that answers every commit with one distinct file. -/
def dnetOneFile : String → HttpResp CommitDetails :=
  fun _ =>
    { status_code := 200
      body := { message := "m", files := [{ filename := "a.py", status := "modified" }] }
      text := "" }

/-- Witness for `files_changed_card_spec`: one commit with one file
yields a set of size 1 equal to the total count 1, and its label list
has no duplicate. -/
theorem files_changed_card_spec_witness :
    (generate_commit_summary_agg dnetOneFile "o/r" [⟨"s1", "m1"⟩] [0]).files_changed.card ≤
      ((([⟨"s1", "m1"⟩] : List Commit).map
        (fetch_commit_details dnetOneFile "o/r")).map (fun r => r.2.length)).sum ∧
    ((generate_commit_summary_agg dnetOneFile "o/r" [⟨"s1", "m1"⟩] [0]).files_changed.card =
        ((([⟨"s1", "m1"⟩] : List Commit).map
          (fetch_commit_details dnetOneFile "o/r")).map (fun r => r.2.length)).sum ↔
      ((([⟨"s1", "m1"⟩] : List Commit).map
        (fetch_commit_details dnetOneFile "o/r")).map Prod.snd).flatten.Nodup) :=
  files_changed_card_spec dnetOneFile "o/r" [⟨"s1", "m1"⟩] [0] (by decide)

/-- C6: on a failed per-commit detail fetch, `fetch_commit_details`
returns the message of the already-known commit object with an empty
changed-file list, and the aggregation still produces one message per
commit of the range (no fetch failure aborts the loop). -/
theorem fetch_failure_keeps_message (detail_net : String → HttpResp CommitDetails)
    (repo_full_name : String) (commit : Commit)
    (hfail : (detail_net (commit_url repo_full_name commit.sha)).status_code ≠ 200) :
    fetch_commit_details detail_net repo_full_name commit = (commit.commit_message, []) ∧
    ∀ (commits : List Commit) (order : List Nat),
      order.Perm (List.range commits.length) →
      (generate_commit_summary_agg detail_net repo_full_name commits order).commit_messages.length =
        commits.length := by
  refine ⟨?_, fun commits order h => agg_messages_length detail_net repo_full_name commits order h⟩
  unfold fetch_commit_details
  rw [if_neg hfail]

/-- A detail oracle that fails every request with HTTP 404. -/
def dnet404 : String → HttpResp CommitDetails :=
  fun _ => { status_code := 404, body := { message := "", files := [] }, text := "nf" }

/-- Witness for `fetch_failure_keeps_message`: with every fetch failing,
the known message is kept with no files and the lone commit still
contributes its message. -/
theorem fetch_failure_keeps_message_witness :
    fetch_commit_details dnet404 "o/r" ⟨"s1", "known"⟩ = ("known", []) ∧
    (generate_commit_summary_agg dnet404 "o/r" [⟨"s1", "known"⟩] [0]).commit_messages.length = 1 :=
  ⟨(fetch_failure_keeps_message dnet404 "o/r" ⟨"s1", "known"⟩ (by decide)).1,
   (fetch_failure_keeps_message dnet404 "o/r" ⟨"s1", "known"⟩ (by decide)).2
     [⟨"s1", "known"⟩] [0] (by decide)⟩

/-- A detail oracle that succeeds on both commits, with messages `A`
(for sha `s1`) and `B` (for any other sha). -/
def dnetTwoMessages : String → HttpResp CommitDetails :=
  fun u =>
    if u = commit_url "o/r" "s1" then
      { status_code := 200, body := { message := "A", files := [] }, text := "" }
    else
      { status_code := 200, body := { message := "B", files := [] }, text := "" }

/-- C1: the `as_completed` loop appends commit messages in completion
order, so for the valid completion order `[1, 0]` of a two-commit range
the aggregated `commit_messages` is `["B", "A"]` while the original
range order of the messages is `["A", "B"]` — the messages are
reordered, contradicting the specified order preservation. -/
theorem commit_messages_completion_order_bug :
    ([1, 0].Perm (List.range ([⟨"s1", "A"⟩, ⟨"s2", "B"⟩] : List Commit).length)) ∧
    (([⟨"s1", "A"⟩, ⟨"s2", "B"⟩] : List Commit).map
        (fun c => (fetch_commit_details dnetTwoMessages "o/r" c).1)) = ["A", "B"] ∧
    (generate_commit_summary_agg dnetTwoMessages "o/r"
        [⟨"s1", "A"⟩, ⟨"s2", "B"⟩] [1, 0]).commit_messages = ["B", "A"] ∧
    (["B", "A"] : List String) ≠ ["A", "B"] := by
  decide

/-- C9: on the empty commit list `generate_commit_summary` returns the
fixed string and issues no completion request. -/
theorem empty_commits_fixed_string (detail_net : String → HttpResp CommitDetails)
    (complete : AIRequest → Except String AIResponse)
    (set_iter : Finset String → List String) (repo_full_name custom_prompt : String)
    (order : List Nat) :
    generate_commit_summary detail_net complete set_iter repo_full_name [] custom_prompt order =
      (Except.ok "No commit data available.", []) := by
  simp [generate_commit_summary]

/-!
The `Compare Tags` button handler (the `if st.button(...)` block of the
UI): guard on equal tags, then resolve the range, aggregate and
summarize. Streamlit display calls become `UIMessage` values; an
uncaught OpenAI exception propagates as `Except.error`.
-/

/-- A Streamlit display call made by the button handler. -/
inductive UIMessage where
  | warning (s : String)
  | info (s : String)
  | error (s : String)
  | subheader (s : String)
  | write (s : String)
deriving DecidableEq

/-- What the handler did: the display calls it made, in order, and the
invocations of `get_commits_between_tags` it performed (with their
arguments). -/
structure HandlerResult where
  messages : List UIMessage
  resolver_calls : List (String × String × String × Nat)
deriving DecidableEq

/-- The body of `if st.button("Compare Tags")`. -/
def compare_tags_handler (net : String → HttpResp (List Commit))
    (detail_net : String → HttpResp CommitDetails)
    (complete : AIRequest → Except String AIResponse)
    (set_iter : Finset String → List String) (order : List Nat)
    (selected_repo tag1 tag2 : String) (commit_limit : Nat)
    (custom_prompt : String) : Except String HandlerResult :=
  if tag1 = tag2 then
    Except.ok
      { messages := [UIMessage.warning "Please select two different tags for comparison."]
        resolver_calls := [] }
  else
    let r := get_commits_between_tags net selected_repo tag1 tag2 commit_limit
    let base :=
      UIMessage.info
          ("Comparing `" ++ tag1 ++ "` to `" ++ tag2 ++ "` in `" ++ selected_repo ++ "`...") ::
        r.errors.map UIMessage.error
    let calls := [(selected_repo, tag1, tag2, commit_limit)]
    match r.result with
    | some (c :: cs) =>
      match generate_commit_summary detail_net complete set_iter selected_repo (c :: cs)
          custom_prompt order with
      | (Except.ok summary, _) =>
        Except.ok
          { messages := base ++
              [UIMessage.subheader "\uF8FFüìã Summary of Changes:", UIMessage.write summary]
            resolver_calls := calls }
      | (Except.error e, _) => Except.error e
    | _ =>
      Except.ok
        { messages := base ++
            [UIMessage.warning "No commits found, even after fallback attempt."]
          resolver_calls := calls }

/-- C5: when the two selected tags are equal, the handler only emits the
warning and performs no resolver call — `get_commits_between_tags` is
never reached. -/
theorem equal_tags_guard (net : String → HttpResp (List Commit))
    (detail_net : String → HttpResp CommitDetails)
    (complete : AIRequest → Except String AIResponse)
    (set_iter : Finset String → List String) (order : List Nat)
    (selected_repo tag1 tag2 : String) (commit_limit : Nat) (custom_prompt : String)
    (heq : tag1 = tag2) :
    compare_tags_handler net detail_net complete set_iter order selected_repo tag1 tag2
        commit_limit custom_prompt =
      Except.ok
        { messages := [UIMessage.warning "Please select two different tags for comparison."]
          resolver_calls := [] } := by
  simp [compare_tags_handler, heq]

/-- Witness for `equal_tags_guard`: concrete oracles and `tag1 = tag2 = v1`. -/
theorem equal_tags_guard_witness :
    compare_tags_handler netAllFail dnet404 complete_err0 (fun _ => []) []
        "o/r" "v1" "v1" 10 "prompt" =
      Except.ok
        { messages := [UIMessage.warning "Please select two different tags for comparison."]
          resolver_calls := [] } :=
  equal_tags_guard netAllFail dnet404 complete_err0 (fun _ => []) [] "o/r" "v1" "v1" 10
    "prompt" rfl
